import Mathlib

/-!
# move-forward: device login polling, login, config reading and the webhook relay loop

A shallow embedding of `main.go`.  Every function that talks to the outside
world is modelled as a pure function of an explicit description of that world
(what each HTTP request is answered with, what the file system returns, what
the web socket delivers) and returns the ordered list of effects it performed
(its trace) together with its result.

Conventions
* Go `int` is taken to be 64 bits wide; values are `Int`, and the one place where
  the source multiplies (`time.Duration(pollIntervalSecs) * time.Second`) wraps
  explicitly modulo `2^64`.
* a Go `error` is the `String` of its message; `nil` is `none`.
* a Go `map[string]string` is an association list read with `List.lookup`;
  a missing key reads as the zero value `""` where the source indexes without
  the comma-ok form.
* `[]byte` payloads are `String`s (Go strings are byte sequences).
-/

namespace MoveForward

/-! ## The outside world -/

/-- The body handed to `http.Post`: either `json.Marshal` of a
`map[string]string` (kept structured) or raw bytes. -/
inductive Body where
  | json (fields : List (String × String))
  | raw (bytes : String)
  deriving DecidableEq, Repr

/-- What `http.Post` returns: a transport error (`err != nil`), or a response
with its status code and the `map[string]string` that
`json.NewDecoder(resp.Body).Decode(&result)` leaves in `result` (decode errors
are ignored by the source, so only the resulting map matters). -/
inductive PostResult where
  | error (err : String)
  | response (status : Int) (fields : List (String × String))
  deriving DecidableEq, Repr

/-- What `conn.ReadMessage()` returns. -/
inductive ReadResult where
  | message (payload : String)
  | error (err : String)
  deriving DecidableEq, Repr

/-- The effects a run performs, in program order.  `post` is the whole
synchronous call `http.Post(url, contentType, body)` together with what it
returned; `closeBody url n` is `resp.Body.Close()` on the response to the
`n`-th request (counted from 0) that the run posted to `url`. -/
inductive Event where
  | sleep (d : Int)
  | post (url contentType : String) (body : Body) (result : PostResult)
  | closeBody (url : String) (n : Nat)
  | print (text : String)
  | logPrint (text : String)
  | dial (url : String)
  | readMessage (result : ReadResult)
  | writeFile (path data : String) (perm : Nat)
  deriving DecidableEq, Repr

abbrev Trace := List Event

/-- How a command ends: it returns, or `log.Fatalf` prints and exits the
process (deferred calls do not run). -/
inductive Outcome where
  | returned
  | fatal (message : String)
  deriving DecidableEq, Repr

/-! ## PollForToken -/

/-- Two's-complement wrap of an integer into the `int64` range. -/
def wrapInt64 (x : Int) : Int := (x + 2 ^ 63) % 2 ^ 64 - 2 ^ 63

/-- The constant `time.Second`, in nanoseconds. -/
def timeSecond : Int := 1000000000

/-- The error returned when the attempts are used up. -/
def timeoutError : String := "authorization timed out. Please try again"

/-- The token-poll request of iteration `retries`, with what it returned. -/
def pollRequest (deviceCode apiURL : String) (poll : Nat → PostResult) (retries : Nat) : Event :=
  Event.post (apiURL ++ "/token") "application/json" (Body.json [("deviceCode", deviceCode)])
    (poll retries)

/-- The `for retries := 0; retries < maxRetries; retries++` loop of
`PollForToken`.  `remaining` is `maxRetries - retries`; `deferred` holds the
pending `defer resp.Body.Close()` calls, most recent first, which run when the
function returns. -/
def pollLoop (deviceCode apiURL : String) (pollInterval : Int) (poll : Nat → PostResult) :
    (remaining : Nat) → (retries : Nat) → (deferred : Trace) → Trace × (String × Option String)
  | 0, _, deferred => (deferred, ("", some timeoutError))
  | remaining + 1, retries, deferred =>
    match poll retries with
    | PostResult.error err =>
      (Event.sleep pollInterval :: pollRequest deviceCode apiURL poll retries :: deferred,
        ("", some err))
    | PostResult.response status fields =>
      match (if status = 200 then fields.lookup "token" else none) with
      | some token =>
        (Event.sleep pollInterval :: pollRequest deviceCode apiURL poll retries
            :: Event.closeBody (apiURL ++ "/token") retries :: deferred,
          (token, none))
      | none =>
        let rest := pollLoop deviceCode apiURL pollInterval poll remaining (retries + 1)
          (Event.closeBody (apiURL ++ "/token") retries :: deferred)
        (Event.sleep pollInterval :: pollRequest deviceCode apiURL poll retries :: rest.1, rest.2)

/-- `PollForToken(deviceCode, apiURL, pollIntervalSecs, maxRetries)`; `poll n`
is what the `n`-th token request (counted from 0) is answered with. -/
def PollForToken (deviceCode apiURL : String) (pollIntervalSecs maxRetries : Int)
    (poll : Nat → PostResult) : Trace × (String × Option String) :=
  let pollIntervalSecs := if pollIntervalSecs ≤ 0 then 2 else pollIntervalSecs
  let maxRetries := if maxRetries ≤ 0 then 30 else maxRetries
  let pollInterval := wrapInt64 (pollIntervalSecs * timeSecond)
  pollLoop deviceCode apiURL pollInterval poll maxRetries.toNat 0 []

/-! ## Reading traces -/

/-- The `http.Post` calls of a trace. -/
def postsOf (tr : Trace) : Trace :=
  tr.filter (fun e => match e with
    | Event.post _ _ _ _ => true
    | _ => false)

/-- The `time.Sleep` calls of a trace. -/
def sleepsOf (tr : Trace) : List Int :=
  tr.filterMap (fun e => match e with
    | Event.sleep d => some d
    | _ => none)

/-- Nanoseconds spent in `time.Sleep`: a negative or zero duration returns
immediately. -/
def timeSlept (tr : Trace) : Int := ((sleepsOf tr).map (fun d => max d 0)).sum

/-- One poll cycle: sleep, then one request. -/
def pollCycle (deviceCode apiURL : String) (pollInterval : Int) (poll : Nat → PostResult)
    (retries : Nat) : Trace :=
  [Event.sleep pollInterval, pollRequest deviceCode apiURL poll retries]

/-- The poll cycles `start, start + 1, ..., start + n - 1`, in order. -/
def pollCycles (deviceCode apiURL : String) (pollInterval : Int) (poll : Nat → PostResult)
    (start : Nat) : Nat → Trace
  | 0 => []
  | n + 1 => pollCycle deviceCode apiURL pollInterval poll start
      ++ pollCycles deviceCode apiURL pollInterval poll (start + 1) n

/-- The deferred closes of responses `start .. start + n - 1`, last first. -/
def closeBodies (url : String) (start : Nat) : Nat → Trace
  | 0 => []
  | n + 1 => closeBodies url (start + 1) n ++ [Event.closeBody url start]

/-! ## The config file -/

structure ServiceConfig where
  Name : String
  ApiBaseURL : String
  WebSocketBaseURL : String
  Description : String
  PollIntervalSecs : Int
  MaxRetries : Int
  deriving DecidableEq, Repr

/-- The struct `Config`.  `ExpireAt` is kept as the text of the `time.Time`;
`Services` is `none` for a nil map and `some l` for an allocated one. -/
structure Config where
  Token : String
  ExpireAt : String
  DeviceID : String
  ForwardURL : String
  CurrentService : String
  Services : Option (List (String × ServiceConfig))
  deriving DecidableEq, Repr

/-- A value or a Go `error`. -/
inductive Result (α : Type) where
  | ok (value : α)
  | error (err : String)
  deriving DecidableEq, Repr

/-- What `os.ReadFile` returns: the bytes, the error of a file that does not
exist, or any other error (permission denied, is a directory, ...). -/
inductive ReadFileResult where
  | data (bytes : String)
  | notExist
  | failure (err : String)
  deriving DecidableEq, Repr

/-- The machine the program runs on: results of the operating-system and
library calls that `main.go` makes (`os.Hostname`, `user.Current`,
`filepath.Join`, `os.ReadFile`, `json.Unmarshal` into a `Config`,
`json.MarshalIndent` of a `Config`, `os.WriteFile`). -/
structure Host where
  hostname : String
  userCurrent : Result String
  filepathJoin : String → String → String
  readFile : String → ReadFileResult
  jsonUnmarshal : String → Result Config
  jsonMarshalIndent : Config → Result String
  writeFile : String → String → Option String

def configFileName : String := ".move-forward.json"

/-- The zero `time.Time`, as text. -/
def zeroTime : String := "0001-01-01T00:00:00Z"

/-- The value `Config{Services: make(map[string]ServiceConfig)}`. -/
def emptyConfig : Config :=
  { Token := "", ExpireAt := zeroTime, DeviceID := "", ForwardURL := "", CurrentService := "",
    Services := some [] }

def getConfigPath (h : Host) : Result String :=
  match h.userCurrent with
  | Result.error err => Result.error err
  | Result.ok homeDir => Result.ok (h.filepathJoin homeDir configFileName)

def ReadConfig (h : Host) : Result Config :=
  match getConfigPath h with
  | Result.error err => Result.error err
  | Result.ok configPath =>
    match h.readFile configPath with
    | ReadFileResult.notExist => Result.ok emptyConfig
    | ReadFileResult.failure _ => Result.ok emptyConfig
    | ReadFileResult.data data =>
      match h.jsonUnmarshal data with
      | Result.error err => Result.error err
      | Result.ok config =>
        match config.Services with
        | none => Result.ok { config with Services := some [] }
        | some _ => Result.ok config

/-- `WriteConfig(config)`: the write it performs, if it gets that far, and the
error it returns. -/
def WriteConfig (h : Host) (config : Config) : Trace × Option String :=
  match getConfigPath h with
  | Result.error err => ([], some err)
  | Result.ok configPath =>
    match h.jsonMarshalIndent config with
    | Result.error err => ([], some err)
    | Result.ok data => ([Event.writeFile configPath data 0o644], h.writeFile configPath data)

/-! ## Login -/

/-- Plain indexing `m[key]` of a `map[string]string`: the zero value when the
key is missing. -/
def mapIndex (m : List (String × String)) (key : String) : String :=
  (m.lookup key).getD ""

/-- The device-login request, with what it returned. -/
def loginRequest (apiURL : String) (h : Host) (deviceLogin : PostResult) : Event :=
  Event.post (apiURL ++ "/device-login") "application/json" (Body.json [("host", h.hostname)])
    deviceLogin

/-- What `Login` does between a device-login response and the start of polling. -/
def loginIntro (apiURL : String) (h : Host) (deviceLogin : PostResult)
    (result : List (String × String)) : Trace :=
  [loginRequest apiURL h deviceLogin,
   Event.print "🔗 Open the following link in your browser to authenticate:\n",
   Event.print ("👉 " ++ mapIndex result "verificationUri" ++ "\n"),
   Event.print "⌛ Waiting for authorization...\n"]

/-- `Login(apiURL, pollIntervalSecs, maxRetries)` on host `h`, where the
device-login request is answered with `deviceLogin` and the `n`-th token
request with `poll n`. -/
def Login (apiURL : String) (pollIntervalSecs maxRetries : Int) (h : Host)
    (deviceLogin : PostResult) (poll : Nat → PostResult) : Trace × Outcome :=
  match deviceLogin with
  | PostResult.error err =>
    ([loginRequest apiURL h deviceLogin], Outcome.fatal ("❌ Login failed: " ++ err))
  | PostResult.response _ result =>
    let polled := PollForToken (mapIndex result "deviceCode") apiURL pollIntervalSecs maxRetries poll
    match polled.2 with
    | (_, some err) =>
      (loginIntro apiURL h deviceLogin result ++ polled.1, Outcome.fatal ("❌ " ++ err))
    | (token, none) =>
      match ReadConfig h with
      | Result.error err =>
        (loginIntro apiURL h deviceLogin result ++ polled.1,
          Outcome.fatal ("❌ Failed to read config: " ++ err))
      | Result.ok config =>
        let written := WriteConfig h { config with Token := token }
        match written.2 with
        | some err =>
          (loginIntro apiURL h deviceLogin result ++ polled.1 ++ written.1,
            Outcome.fatal ("❌ Failed to save login token: " ++ err))
        | none =>
          (loginIntro apiURL h deviceLogin result ++ polled.1 ++ written.1
              ++ [Event.print "✅ Logged in successfully.\n",
                  Event.closeBody (apiURL ++ "/device-login") 0],
            Outcome.returned)

/-- The `os.WriteFile` calls of a trace, as (path, data). -/
def writesOf (tr : Trace) : List (String × String) :=
  tr.filterMap (fun e => match e with
    | Event.writeFile path data _ => some (path, data)
    | _ => none)

/-! ## Listen -/

/-- The web socket and the forward sink: the error of `Dial` if any, what the
`n`-th `ReadMessage` returns, and what the POST of the `n`-th message returns
(both counted from 0). -/
structure Stream where
  dial : Option String
  readMessage : Nat → ReadResult
  forward : Nat → PostResult

/-- What one iteration of the relay loop does with the message `message`, the
`n`-th one read. -/
def relayCycle (forwardURL : String) (s : Stream) (n : Nat) (message : String) : Trace :=
  [Event.readMessage (ReadResult.message message),
   Event.print "\n🌟 Received Webhook:\n",
   Event.print (message ++ "\n"),
   Event.post forwardURL "application/json" (Body.raw message) (s.forward n)]
  ++ (match s.forward n with
      | PostResult.error err => [Event.logPrint ("❌ Failed to forward webhook: " ++ err)]
      | PostResult.response _ _ => [Event.closeBody forwardURL n])

/-- The `for` loop of `Listen`, observed for at most `fuel` iterations starting
with the `n`-th read.  The second component is `none` while the loop is still
running and the fatal outcome once a read has failed. -/
def relayLoop (forwardURL : String) (s : Stream) : (fuel : Nat) → (n : Nat) → Trace × Option Outcome
  | 0, _ => ([], none)
  | fuel + 1, n =>
    match s.readMessage n with
    | ReadResult.error err =>
      ([Event.readMessage (ReadResult.error err)],
        some (Outcome.fatal ("❌ Webhook listener closed unexpectedly: " ++ err)))
    | ReadResult.message message =>
      let rest := relayLoop forwardURL s fuel (n + 1)
      (relayCycle forwardURL s n message ++ rest.1, rest.2)

/-- What `Listen` does before the loop, on a successful dial. -/
def listenIntro (forwardURL token wsURL : String) : Trace :=
  [Event.print "🌐 Starting webhook listener...\n",
   Event.dial (wsURL ++ "?token=" ++ token),
   Event.print "✅ Webhook listener started\n",
   Event.print ("🔄 Forwarding events to: " ++ forwardURL ++ "\n")]

/-- `Listen(forwardURL, token, wsURL)`, observed for at most `fuel` loop
iterations. -/
def Listen (forwardURL token wsURL : String) (s : Stream) (fuel : Nat) : Trace × Option Outcome :=
  match s.dial with
  | some err =>
    ([Event.print "🌐 Starting webhook listener...\n", Event.dial (wsURL ++ "?token=" ++ token)],
      some (Outcome.fatal ("❌ Failed to connect to WebSocket: " ++ err)))
  | none =>
    let looped := relayLoop forwardURL s fuel 0
    (listenIntro forwardURL token wsURL ++ looped.1, looped.2)

/-- The raw-body POSTs of a trace, as (url, body). -/
def forwardsOf (tr : Trace) : List (String × String) :=
  tr.filterMap (fun e => match e with
    | Event.post url _ (Body.raw bytes) _ => some (url, bytes)
    | _ => none)

/-- The reads of a trace. -/
def readsOf (tr : Trace) : List ReadResult :=
  tr.filterMap (fun e => match e with
    | Event.readMessage r => some r
    | _ => none)

/-- The relay cycles of the messages `ms`, the first of which is the `n`-th read. -/
def relayCycles (forwardURL : String) (s : Stream) : (n : Nat) → List String → Trace
  | _, [] => []
  | n, m :: ms => relayCycle forwardURL s n m ++ relayCycles forwardURL s (n + 1) ms

/-! ## Concrete worlds used below -/

/-- Poll environment: nobody ever approves. -/
def pendingForever : Nat → PostResult := fun _ => PostResult.response 200 []

/-- Poll environment: approval arrives with the third request. -/
def approvedAtThird : Nat → PostResult
  | 0 => PostResult.response 200 []
  | 1 => PostResult.response 404 [("token", "early")]
  | 2 => PostResult.response 200 [("token", "tok")]
  | _ => PostResult.response 200 []

/-- Poll environment: the second request fails at the transport layer. -/
def brokenAtSecond : Nat → PostResult
  | 0 => PostResult.response 200 []
  | 1 => PostResult.error "connection refused"
  | _ => PostResult.response 200 [("token", "tok")]

/-- Poll environment: the first answer carries an empty token, the second a
real one. -/
def emptyTokenFirst : Nat → PostResult
  | 0 => PostResult.response 200 [("token", "")]
  | _ => PostResult.response 200 [("token", "tok")]

/-- Poll environment: the first answer carries a token under status 500, the
later ones carry none. -/
def tokenUnderError : Nat → PostResult
  | 0 => PostResult.response 500 [("token", "tok")]
  | _ => PostResult.response 200 []

/-- Stream: messages A, B, C arrive, then the connection is closed; the sink
accepts everything. -/
def threeThenClosed : Stream :=
  { dial := none
    readMessage := fun n => match n with
      | 0 => ReadResult.message "A"
      | 1 => ReadResult.message "B"
      | 2 => ReadResult.message "C"
      | _ => ReadResult.error "EOF"
    forward := fun _ => PostResult.response 200 [] }

/-- Stream: messages A, B, C, D arrive, then the connection is closed; the
POST of B is refused and the sink answers 500 to C. -/
def flakySink : Stream :=
  { dial := none
    readMessage := fun n => match n with
      | 0 => ReadResult.message "A"
      | 1 => ReadResult.message "B"
      | 2 => ReadResult.message "C"
      | 3 => ReadResult.message "D"
      | _ => ReadResult.error "EOF"
    forward := fun n => match n with
      | 1 => PostResult.error "connection refused"
      | 2 => PostResult.response 500 []
      | _ => PostResult.response 200 [] }

/-- Host: a machine with no config file yet. -/
def freshHost : Host :=
  { hostname := "laptop"
    userCurrent := Result.ok "/home/u"
    filepathJoin := fun dir name => dir ++ "/" ++ name
    readFile := fun _ => ReadFileResult.notExist
    jsonUnmarshal := fun _ => Result.error "unexpected end of JSON input"
    jsonMarshalIndent := fun config => Result.ok ("token=" ++ config.Token)
    writeFile := fun _ _ => none }

/-- Host: the config file exists but cannot be opened. -/
def lockedHost : Host :=
  { freshHost with readFile := fun _ => ReadFileResult.failure "permission denied" }

/-- Device-login answer that has a verification URI but no device code. -/
def noDeviceCode : PostResult :=
  PostResult.response 200 [("verificationUri", "https://auth.example/verify")]

/-- Device-login answer with both fields. -/
def deviceCodeIssued : PostResult :=
  PostResult.response 200 [("deviceCode", "dc"), ("verificationUri", "https://auth.example/verify")]

end MoveForward

namespace MoveForward

/-! ## PollForToken: the loop -/

theorem pollLoop_skip (deviceCode apiURL : String) (d : Int) (poll : Nat → PostResult)
    (j remaining : Nat) :
    ∀ (retries : Nat) (deferred : Trace),
      (∀ i, i < j → ∃ status fields, poll (retries + i) = PostResult.response status fields ∧
        (if status = 200 then fields.lookup "token" else none) = none) →
      pollLoop deviceCode apiURL d poll (j + remaining) retries deferred =
        (pollCycles deviceCode apiURL d poll retries j ++
          (pollLoop deviceCode apiURL d poll remaining (retries + j)
            (closeBodies (apiURL ++ "/token") retries j ++ deferred)).1,
         (pollLoop deviceCode apiURL d poll remaining (retries + j)
            (closeBodies (apiURL ++ "/token") retries j ++ deferred)).2) := by
  induction j with
  | zero =>
    intro retries deferred _
    simp [pollCycles, closeBodies]
  | succ j ih =>
    intro retries deferred h
    obtain ⟨status, fields, hp, hnone⟩ := h 0 (Nat.succ_pos j)
    have hp0 : poll retries = PostResult.response status fields := by simpa using hp
    have hrest : ∀ i, i < j → ∃ status fields,
        poll (retries + 1 + i) = PostResult.response status fields ∧
        (if status = 200 then fields.lookup "token" else none) = none := by
      intro i hi
      have := h (i + 1) (Nat.succ_lt_succ hi)
      rwa [show retries + (i + 1) = retries + 1 + i by omega] at this
    have hstep : j + 1 + remaining = (j + remaining) + 1 := by omega
    rw [hstep, pollLoop, hp0]
    simp only [hnone]
    rw [ih (retries + 1) _ hrest]
    have hidx : retries + 1 + j = retries + (j + 1) := by omega
    simp [pollCycles, pollCycle, closeBodies, hidx, List.append_assoc]

/-! ## Counting the effects of poll cycles -/

theorem postsOf_append (a b : Trace) : postsOf (a ++ b) = postsOf a ++ postsOf b := by
  simp [postsOf]

theorem sleepsOf_append (a b : Trace) : sleepsOf (a ++ b) = sleepsOf a ++ sleepsOf b := by
  simp [sleepsOf]

theorem postsOf_closeBodies (url : String) (n : Nat) :
    ∀ start, postsOf (closeBodies url start n) = [] := by
  induction n with
  | zero => intro start; rfl
  | succ n ih => intro start; rw [closeBodies, postsOf_append, ih]; rfl

theorem sleepsOf_closeBodies (url : String) (n : Nat) :
    ∀ start, sleepsOf (closeBodies url start n) = [] := by
  induction n with
  | zero => intro start; rfl
  | succ n ih => intro start; rw [closeBodies, sleepsOf_append, ih]; rfl

theorem postsOf_pollCycles_length (deviceCode apiURL : String) (d : Int) (poll : Nat → PostResult)
    (n : Nat) : ∀ start, (postsOf (pollCycles deviceCode apiURL d poll start n)).length = n := by
  induction n with
  | zero => intro start; rfl
  | succ n ih =>
    intro start
    have hone : postsOf (pollCycle deviceCode apiURL d poll start)
        = [pollRequest deviceCode apiURL poll start] := rfl
    rw [pollCycles, postsOf_append, List.length_append, ih, hone]
    simp [Nat.add_comm]

theorem sleepsOf_pollCycles (deviceCode apiURL : String) (d : Int) (poll : Nat → PostResult)
    (n : Nat) : ∀ start, sleepsOf (pollCycles deviceCode apiURL d poll start n)
      = List.replicate n d := by
  induction n with
  | zero => intro start; rfl
  | succ n ih =>
    intro start
    have hone : sleepsOf (pollCycle deviceCode apiURL d poll start) = [d] := rfl
    rw [pollCycles, sleepsOf_append, ih, hone, List.replicate_succ]
    rfl

theorem pollCycles_snoc (deviceCode apiURL : String) (d : Int) (poll : Nat → PostResult)
    (n : Nat) : ∀ start, pollCycles deviceCode apiURL d poll start (n + 1)
      = pollCycles deviceCode apiURL d poll start n
        ++ pollCycle deviceCode apiURL d poll (start + n) := by
  induction n with
  | zero => intro start; simp [pollCycles]
  | succ n ih =>
    intro start
    rw [pollCycles, ih (start + 1), pollCycles, List.append_assoc]
    rw [show start + 1 + n = start + (n + 1) by omega]

theorem closeBodies_snoc (url : String) (n : Nat) :
    ∀ start, closeBodies url start (n + 1)
      = Event.closeBody url (start + n) :: closeBodies url start n := by
  induction n with
  | zero => intro start; simp [closeBodies]
  | succ n ih =>
    intro start
    rw [closeBodies, ih (start + 1), closeBodies]
    rw [show start + 1 + n = start + (n + 1) by omega]
    simp

theorem sum_replicate_int (n : Nat) (x : Int) : (List.replicate n x).sum = n * x := by
  induction n with
  | zero => simp
  | succ n ih => simp [List.replicate_succ, ih]; ring

theorem wrapInt64_of_fits (x : Int) (h0 : 0 ≤ x) (h1 : x < 2 ^ 63) : wrapInt64 x = x := by
  unfold wrapInt64
  rw [Int.emod_eq_of_lt (by omega) (by omega)]
  omega

theorem PollForToken_eq (deviceCode apiURL : String) (p m : Int) (poll : Nat → PostResult) :
    PollForToken deviceCode apiURL p m poll =
      pollLoop deviceCode apiURL (wrapInt64 ((if p ≤ 0 then 2 else p) * timeSecond)) poll
        (if m ≤ 0 then 30 else m).toNat 0 [] := rfl

/-- The trace and result of a poll whose first `j` answers grant nothing,
reduced to what the loop does from request `j` on. -/
theorem PollForToken_skip (deviceCode apiURL : String) (p m : Int) (poll : Nat → PostResult)
    (j remaining : Nat) (hlen : (if m ≤ 0 then 30 else m).toNat = j + remaining)
    (h : ∀ i, i < j → ∃ status fields, poll i = PostResult.response status fields ∧
        (if status = 200 then fields.lookup "token" else none) = none) :
    PollForToken deviceCode apiURL p m poll =
      (pollCycles deviceCode apiURL (wrapInt64 ((if p ≤ 0 then 2 else p) * timeSecond)) poll 0 j ++
        (pollLoop deviceCode apiURL (wrapInt64 ((if p ≤ 0 then 2 else p) * timeSecond)) poll
          remaining j (closeBodies (apiURL ++ "/token") 0 j)).1,
       (pollLoop deviceCode apiURL (wrapInt64 ((if p ≤ 0 then 2 else p) * timeSecond)) poll
          remaining j (closeBodies (apiURL ++ "/token") 0 j)).2) := by
  rw [PollForToken_eq, hlen, pollLoop_skip deviceCode apiURL _ poll j remaining 0 []
    (by intro i hi; simpa using h i hi)]
  simp

/-! ## PollForToken: the claims -/

/-- C1 (amended): for `0 < pollInterval ≤ 9223372036` seconds (the interval
fits a `time.Duration`) and `maxAttempts > 0`, when the first `maxAttempts`
poll requests all get a response without a token field, `PollForToken` performs
exactly `maxAttempts` cycles of one sleep of `pollInterval` seconds followed by
one request, then runs its deferred closes and returns the timeout error with
an empty token; it sleeps `maxAttempts × pollInterval` seconds in total. -/
theorem PollForToken_times_out (deviceCode apiURL : String) (p m : Int)
    (poll : Nat → PostResult) (hp : 0 < p) (hfit : p ≤ 9223372036) (hm : 0 < m)
    (hpend : ∀ i : Nat, (i : Int) < m → ∃ status fields,
      poll i = PostResult.response status fields ∧ fields.lookup "token" = none) :
    PollForToken deviceCode apiURL p m poll
        = (pollCycles deviceCode apiURL (p * timeSecond) poll 0 m.toNat
            ++ closeBodies (apiURL ++ "/token") 0 m.toNat, ("", some timeoutError))
      ∧ ((postsOf (PollForToken deviceCode apiURL p m poll).1).length : Int) = m
      ∧ sleepsOf (PollForToken deviceCode apiURL p m poll).1
          = List.replicate m.toNat (p * timeSecond)
      ∧ timeSlept (PollForToken deviceCode apiURL p m poll).1 = m * (p * timeSecond) := by
  have hm' : (if m ≤ 0 then 30 else m) = m := if_neg (by omega)
  have hp' : (if p ≤ 0 then 2 else p) = p := if_neg (by omega)
  have hw : wrapInt64 (p * timeSecond) = p * timeSecond :=
    wrapInt64_of_fits _ (by unfold timeSecond; omega) (by unfold timeSecond; omega)
  have key := PollForToken_skip deviceCode apiURL p m poll m.toNat 0 (by simp [hm'])
    (by
      intro i hi
      obtain ⟨status, fields, h1, h2⟩ := hpend i (by omega)
      exact ⟨status, fields, h1, by simp [h2]⟩)
  rw [hp', hw] at key
  simp only [pollLoop] at key
  have hpos : 0 ≤ p * timeSecond := by unfold timeSecond; omega
  refine ⟨key, ?_, ?_, ?_⟩
  · rw [key]
    simp only [postsOf_append, List.length_append, postsOf_pollCycles_length, postsOf_closeBodies,
      List.length_nil]
    omega
  · rw [key]
    simp only [sleepsOf_append, sleepsOf_pollCycles, sleepsOf_closeBodies, List.append_nil]
  · rw [key]
    simp only [timeSlept, sleepsOf_append, sleepsOf_pollCycles, sleepsOf_closeBodies,
      List.append_nil, List.map_replicate, sum_replicate_int, max_eq_left hpos]
    rw [Int.toNat_of_nonneg (by omega)]

/-- C1, evaluated on the scenario of the spec (interval 1 s, 3 attempts,
nobody approves). -/
theorem PollForToken_times_out_witness :
    PollForToken "dc" "u" 1 3 pendingForever
        = (pollCycles "dc" "u" (1 * timeSecond) pendingForever 0 (3 : Int).toNat
            ++ closeBodies ("u" ++ "/token") 0 (3 : Int).toNat, ("", some timeoutError))
      ∧ ((postsOf (PollForToken "dc" "u" 1 3 pendingForever).1).length : Int) = 3
      ∧ sleepsOf (PollForToken "dc" "u" 1 3 pendingForever).1
          = List.replicate (3 : Int).toNat (1 * timeSecond)
      ∧ timeSlept (PollForToken "dc" "u" 1 3 pendingForever).1 = 3 * (1 * timeSecond) :=
  PollForToken_times_out "dc" "u" 1 3 pendingForever (by decide) (by decide) (by decide)
    (fun _ _ => ⟨200, [], rfl, rfl⟩)

/-- C1 as stated fails for a large interval: with `pollInterval = 9223372037`
seconds (a valid 64-bit `int`) the product with `time.Second` wraps to a
negative `time.Duration`, so the single cycle does not sleep at all. -/
theorem PollForToken_interval_overflow :
    (0 : Int) < 9223372037 ∧ (9223372037 : Int) < 2 ^ 63
      ∧ sleepsOf (PollForToken "dc" "u" 9223372037 1 pendingForever).1
          = [-9223372036709551616]
      ∧ timeSlept (PollForToken "dc" "u" 9223372037 1 pendingForever).1 = 0
      ∧ timeSlept (PollForToken "dc" "u" 9223372037 1 pendingForever).1
          ≠ 1 * (9223372037 * timeSecond) := by
  decide

/-- C2 (amended): when the first `j` poll requests get responses that do not
both have status 200 and a `token` field, and request `j` (the `(j+1)`-th,
within the effective `maxAttempts`) gets a status-200 response with a `token`
field, `PollForToken` performs exactly `j + 1` cycles, then only its deferred
closes, and returns the value of that field with no error. -/
theorem PollForToken_returns_first_token (deviceCode apiURL : String) (p m : Int)
    (poll : Nat → PostResult) (j : Nat) (fields : List (String × String)) (token : String)
    (hj : (j : Int) < (if m ≤ 0 then 30 else m))
    (hpend : ∀ i, i < j → ∃ status fs,
      poll i = PostResult.response status fs ∧ (status = 200 → fs.lookup "token" = none))
    (hgrant : poll j = PostResult.response 200 fields)
    (htoken : fields.lookup "token" = some token) :
    PollForToken deviceCode apiURL p m poll
        = (pollCycles deviceCode apiURL (wrapInt64 ((if p ≤ 0 then 2 else p) * timeSecond))
              poll 0 (j + 1)
            ++ closeBodies (apiURL ++ "/token") 0 (j + 1), (token, none))
      ∧ (postsOf (PollForToken deviceCode apiURL p m poll).1).length = j + 1
      ∧ (sleepsOf (PollForToken deviceCode apiURL p m poll).1).length = j + 1 := by
  obtain ⟨remaining, hlen⟩ : ∃ remaining,
      (if m ≤ 0 then 30 else m).toNat = j + (remaining + 1) :=
    ⟨(if m ≤ 0 then 30 else m).toNat - (j + 1), by omega⟩
  have key := PollForToken_skip deviceCode apiURL p m poll j (remaining + 1) hlen
    (by
      intro i hi
      obtain ⟨status, fs, h1, h2⟩ := hpend i hi
      refine ⟨status, fs, h1, ?_⟩
      by_cases hs : status = 200
      · simp [hs, h2 hs]
      · simp [hs])
  simp only [pollLoop, hgrant, htoken, if_true] at key
  have key2 : PollForToken deviceCode apiURL p m poll
      = (pollCycles deviceCode apiURL (wrapInt64 ((if p ≤ 0 then 2 else p) * timeSecond))
            poll 0 (j + 1)
          ++ closeBodies (apiURL ++ "/token") 0 (j + 1), (token, none)) := by
    rw [key]
    rw [pollCycles_snoc, closeBodies_snoc]
    simp [pollCycle, List.append_assoc]
  refine ⟨key2, ?_, ?_⟩
  · rw [key2]
    simp only [postsOf_append, List.length_append, postsOf_pollCycles_length, postsOf_closeBodies,
      List.length_nil, Nat.add_zero]
  · rw [key2]
    simp only [sleepsOf_append, sleepsOf_pollCycles, sleepsOf_closeBodies, List.append_nil,
      List.length_replicate]

/-- C2, evaluated on a poll that is approved at the third request, after a
pending answer and a token under status 404. -/
theorem PollForToken_returns_first_token_witness :
    PollForToken "dc" "u" 1 5 approvedAtThird
        = (pollCycles "dc" "u" (wrapInt64 ((if (1 : Int) ≤ 0 then 2 else 1) * timeSecond))
              approvedAtThird 0 (2 + 1)
            ++ closeBodies ("u" ++ "/token") 0 (2 + 1), ("tok", none))
      ∧ (postsOf (PollForToken "dc" "u" 1 5 approvedAtThird).1).length = 2 + 1
      ∧ (sleepsOf (PollForToken "dc" "u" 1 5 approvedAtThird).1).length = 2 + 1 :=
  PollForToken_returns_first_token "dc" "u" 1 5 approvedAtThird 2 [("token", "tok")] "tok"
    (by decide)
    (by
      intro i hi
      match i, hi with
      | 0, _ => exact ⟨200, [], rfl, fun _ => rfl⟩
      | 1, _ => exact ⟨404, [("token", "early")], rfl, fun h => absurd h (by decide)⟩)
    rfl rfl

/-- C2 as stated fails twice over.  A status-200 answer whose `token` field is
the empty string ends the poll at once: the first non-empty token is in the
second answer, yet one request is made and `""` is returned with no error.  And
an answer that carries a non-empty token under a status other than 200 is not
accepted: the poll goes on to its timeout. -/
theorem PollForToken_token_presence_not_content :
    (emptyTokenFirst 0 = PostResult.response 200 [("token", "")]
      ∧ emptyTokenFirst 1 = PostResult.response 200 [("token", "tok")]
      ∧ (PollForToken "dc" "u" 1 3 emptyTokenFirst).2 = ("", none)
      ∧ (postsOf (PollForToken "dc" "u" 1 3 emptyTokenFirst).1).length = 1)
    ∧ (tokenUnderError 0 = PostResult.response 500 [("token", "tok")]
      ∧ (PollForToken "dc" "u" 1 3 tokenUnderError).2 = ("", some timeoutError)
      ∧ (postsOf (PollForToken "dc" "u" 1 3 tokenUnderError).1).length = 3) := by
  decide

/-- C3: when the first `j` poll requests get responses without a token field
and request `j` (the `(j+1)`-th, within the effective `maxAttempts`) fails at
the transport layer with `err`, `PollForToken` performs exactly `j + 1` cycles,
then only the deferred closes of the `j` responses, and returns `err` with an
empty token. -/
theorem PollForToken_aborts_on_transport_error (deviceCode apiURL : String) (p m : Int)
    (poll : Nat → PostResult) (j : Nat) (err : String)
    (hj : (j : Int) < (if m ≤ 0 then 30 else m))
    (hpend : ∀ i, i < j → ∃ status fields,
      poll i = PostResult.response status fields ∧ fields.lookup "token" = none)
    (hfail : poll j = PostResult.error err) :
    PollForToken deviceCode apiURL p m poll
        = (pollCycles deviceCode apiURL (wrapInt64 ((if p ≤ 0 then 2 else p) * timeSecond))
              poll 0 (j + 1)
            ++ closeBodies (apiURL ++ "/token") 0 j, ("", some err))
      ∧ (postsOf (PollForToken deviceCode apiURL p m poll).1).length = j + 1
      ∧ (sleepsOf (PollForToken deviceCode apiURL p m poll).1).length = j + 1 := by
  obtain ⟨remaining, hlen⟩ : ∃ remaining,
      (if m ≤ 0 then 30 else m).toNat = j + (remaining + 1) :=
    ⟨(if m ≤ 0 then 30 else m).toNat - (j + 1), by omega⟩
  have key := PollForToken_skip deviceCode apiURL p m poll j (remaining + 1) hlen
    (by
      intro i hi
      obtain ⟨status, fields, h1, h2⟩ := hpend i hi
      exact ⟨status, fields, h1, by simp [h2]⟩)
  simp only [pollLoop, hfail] at key
  have key2 : PollForToken deviceCode apiURL p m poll
      = (pollCycles deviceCode apiURL (wrapInt64 ((if p ≤ 0 then 2 else p) * timeSecond))
            poll 0 (j + 1)
          ++ closeBodies (apiURL ++ "/token") 0 j, ("", some err)) := by
    rw [key, pollCycles_snoc]
    simp [pollCycle, List.append_assoc]
  refine ⟨key2, ?_, ?_⟩
  · rw [key2]
    simp only [postsOf_append, List.length_append, postsOf_pollCycles_length, postsOf_closeBodies,
      List.length_nil, Nat.add_zero]
  · rw [key2]
    simp only [sleepsOf_append, sleepsOf_pollCycles, sleepsOf_closeBodies, List.append_nil,
      List.length_replicate]

/-- C3, evaluated on a poll whose second request is refused. -/
theorem PollForToken_aborts_on_transport_error_witness :
    PollForToken "dc" "u" 1 5 brokenAtSecond
        = (pollCycles "dc" "u" (wrapInt64 ((if (1 : Int) ≤ 0 then 2 else 1) * timeSecond))
              brokenAtSecond 0 (1 + 1)
            ++ closeBodies ("u" ++ "/token") 0 1, ("", some "connection refused"))
      ∧ (postsOf (PollForToken "dc" "u" 1 5 brokenAtSecond).1).length = 1 + 1
      ∧ (sleepsOf (PollForToken "dc" "u" 1 5 brokenAtSecond).1).length = 1 + 1 :=
  PollForToken_aborts_on_transport_error "dc" "u" 1 5 brokenAtSecond 1 "connection refused"
    (by decide)
    (by
      intro i hi
      match i, hi with
      | 0, _ => exact ⟨200, [], rfl, rfl⟩)
    rfl

/-! ## PollForToken: bounds that hold for every remote behaviour -/

theorem pollLoop_sleeps (deviceCode apiURL : String) (d : Int) (poll : Nat → PostResult)
    (remaining : Nat) : ∀ (retries : Nat) (deferred : Trace) (x : Int),
      x ∈ sleepsOf (pollLoop deviceCode apiURL d poll remaining retries deferred).1 →
      x = d ∨ x ∈ sleepsOf deferred := by
  induction remaining with
  | zero => intro retries deferred x hx; exact Or.inr hx
  | succ remaining ih =>
    intro retries deferred x hx
    rw [pollLoop] at hx
    cases hpoll : poll retries with
    | error err =>
      rw [hpoll] at hx
      simp only [sleepsOf, pollRequest, List.filterMap_cons, List.mem_cons] at hx
      rcases hx with hx | hx
      · exact Or.inl hx
      · exact Or.inr hx
    | response status fields =>
      rw [hpoll] at hx
      cases hgrant : (if status = 200 then fields.lookup "token" else none) with
      | some token =>
        simp only [hgrant, sleepsOf, pollRequest, List.filterMap_cons, List.mem_cons] at hx
        rcases hx with hx | hx
        · exact Or.inl hx
        · exact Or.inr hx
      | none =>
        simp only [hgrant, sleepsOf, pollRequest, List.filterMap_cons, List.mem_cons] at hx
        rcases hx with hx | hx
        · exact Or.inl hx
        · rcases ih (retries + 1) _ x hx with h | h
          · exact Or.inl h
          · simp only [sleepsOf, List.filterMap_cons] at h
            exact Or.inr h

theorem pollLoop_posts_le (deviceCode apiURL : String) (d : Int) (poll : Nat → PostResult)
    (remaining : Nat) : ∀ (retries : Nat) (deferred : Trace),
      (postsOf (pollLoop deviceCode apiURL d poll remaining retries deferred).1).length
        ≤ remaining + (postsOf deferred).length := by
  induction remaining with
  | zero => intro retries deferred; simp [pollLoop]
  | succ remaining ih =>
    intro retries deferred
    rw [pollLoop]
    cases hpoll : poll retries with
    | error err =>
      simp only [postsOf, pollRequest, List.filter_cons]
      simp
      omega
    | response status fields =>
      cases hgrant : (if status = 200 then fields.lookup "token" else none) with
      | some token =>
        simp only [hgrant, postsOf, pollRequest, List.filter_cons]
        simp
        omega
      | none =>
        have h := ih (retries + 1) (Event.closeBody (apiURL ++ "/token") retries :: deferred)
        simp only [hgrant, postsOf, pollRequest, List.filter_cons] at h ⊢
        simp at h ⊢
        omega

/-- C4: `PollForToken` replaces each of `pollIntervalSecs` and `maxRetries` by
its default (2 and 30) exactly when it is non-positive; called with both
non-positive it has the same trace and result as with 2 and 30, whatever the
service answers; every sleep lasts the effective interval and there are never
more requests than the effective number of attempts. -/
theorem PollForToken_defaults (deviceCode apiURL : String) (p m : Int)
    (poll : Nat → PostResult) :
    PollForToken deviceCode apiURL p m poll
        = PollForToken deviceCode apiURL (if p ≤ 0 then 2 else p) (if m ≤ 0 then 30 else m) poll
      ∧ (p ≤ 0 → m ≤ 0 →
          PollForToken deviceCode apiURL p m poll = PollForToken deviceCode apiURL 2 30 poll)
      ∧ (p ≤ 0 → ∀ d ∈ sleepsOf (PollForToken deviceCode apiURL p m poll).1, d = 2 * timeSecond)
      ∧ (0 < p → ∀ d ∈ sleepsOf (PollForToken deviceCode apiURL p m poll).1,
          d = wrapInt64 (p * timeSecond))
      ∧ (m ≤ 0 → (postsOf (PollForToken deviceCode apiURL p m poll).1).length ≤ 30)
      ∧ (0 < m → ((postsOf (PollForToken deviceCode apiURL p m poll).1).length : Int) ≤ m) := by
  have hsleep : ∀ d ∈ sleepsOf (PollForToken deviceCode apiURL p m poll).1,
      d = wrapInt64 ((if p ≤ 0 then 2 else p) * timeSecond) := by
    intro d hd
    rw [PollForToken_eq] at hd
    rcases pollLoop_sleeps _ _ _ _ _ _ _ d hd with h | h
    · exact h
    · simp [sleepsOf] at h
  have hposts : (postsOf (PollForToken deviceCode apiURL p m poll).1).length
      ≤ (if m ≤ 0 then 30 else m).toNat := by
    rw [PollForToken_eq]
    have := pollLoop_posts_le deviceCode apiURL
      (wrapInt64 ((if p ≤ 0 then 2 else p) * timeSecond)) poll (if m ≤ 0 then 30 else m).toNat 0 []
    simpa [postsOf] using this
  refine ⟨?_, ?_, ?_, ?_, ?_, ?_⟩
  · rw [PollForToken_eq, PollForToken_eq]
    by_cases hp : p ≤ 0 <;> by_cases hm : m ≤ 0 <;> simp [hp, hm]
  · intro hp hm
    rw [PollForToken_eq, PollForToken_eq]
    simp [hp, hm]
  · intro hp d hd
    have := hsleep d hd
    rw [if_pos hp] at this
    rw [this]
    decide
  · intro hp d hd
    have := hsleep d hd
    rwa [if_neg (by omega)] at this
  · intro hm
    have := hposts
    rw [if_pos hm] at this
    simpa using this
  · intro hm
    have := hposts
    rw [if_neg (by omega)] at this
    omega

/-- C4, evaluated on non-positive arguments against a service that approves
at the third request. -/
theorem PollForToken_defaults_witness :
    PollForToken "dc" "u" 0 (-5) approvedAtThird = PollForToken "dc" "u" 2 30 approvedAtThird :=
  (PollForToken_defaults "dc" "u" 0 (-5) approvedAtThird).2.1 (by decide) (by decide)

/-! ## Listen: the relay loop -/

theorem forwardsOf_append (a b : Trace) : forwardsOf (a ++ b) = forwardsOf a ++ forwardsOf b := by
  simp [forwardsOf]

theorem readsOf_append (a b : Trace) : readsOf (a ++ b) = readsOf a ++ readsOf b := by
  simp [readsOf]

theorem forwardsOf_relayCycle (forwardURL : String) (s : Stream) (n : Nat) (message : String) :
    forwardsOf (relayCycle forwardURL s n message) = [(forwardURL, message)] := by
  unfold relayCycle
  cases s.forward n <;> rfl

theorem readsOf_relayCycle (forwardURL : String) (s : Stream) (n : Nat) (message : String) :
    readsOf (relayCycle forwardURL s n message) = [ReadResult.message message] := by
  unfold relayCycle
  cases s.forward n <;> rfl

theorem forwardsOf_relayCycles (forwardURL : String) (s : Stream) (ms : List String) :
    ∀ n, forwardsOf (relayCycles forwardURL s n ms) = ms.map (fun m => (forwardURL, m)) := by
  induction ms with
  | nil => intro n; rfl
  | cons m ms ih =>
    intro n
    rw [relayCycles, forwardsOf_append, forwardsOf_relayCycle, ih]
    rfl

theorem readsOf_relayCycles (forwardURL : String) (s : Stream) (ms : List String) :
    ∀ n, readsOf (relayCycles forwardURL s n ms) = ms.map ReadResult.message := by
  induction ms with
  | nil => intro n; rfl
  | cons m ms ih =>
    intro n
    rw [relayCycles, readsOf_append, readsOf_relayCycle, ih]
    rfl

/-- While the stream delivers the messages `ms`, the loop runs one relay cycle
per message and then goes on with the next read. -/
theorem relayLoop_deliver (forwardURL : String) (s : Stream) (ms : List String) (fuel : Nat) :
    ∀ n, (∀ i m, ms[i]? = some m → s.readMessage (n + i) = ReadResult.message m) →
      relayLoop forwardURL s (ms.length + fuel) n =
        (relayCycles forwardURL s n ms ++ (relayLoop forwardURL s fuel (n + ms.length)).1,
         (relayLoop forwardURL s fuel (n + ms.length)).2) := by
  induction ms with
  | nil => intro n _; simp [relayCycles]
  | cons m ms ih =>
    intro n h
    have h0 : s.readMessage n = ReadResult.message m := by simpa using h 0 m (by simp)
    have hrest : ∀ i m', ms[i]? = some m' → s.readMessage (n + 1 + i) = ReadResult.message m' := by
      intro i m' hi
      have := h (i + 1) m' (by simpa using hi)
      rwa [show n + (i + 1) = n + 1 + i by omega] at this
    have hstep : (m :: ms).length + fuel = (ms.length + fuel) + 1 := by
      simp only [List.length_cons]; omega
    rw [hstep, relayLoop, h0]
    simp only
    rw [ih (n + 1) hrest]
    have hidx : n + 1 + ms.length = n + (m :: ms).length := by
      simp only [List.length_cons]; omega
    simp [relayCycles, hidx, List.append_assoc]

/-- A run in which the stream delivers `ms` and then fails to read: the whole
trace and the outcome, for every observation long enough to see the failure. -/
theorem Listen_until_read_error (forwardURL token wsURL : String) (s : Stream)
    (ms : List String) (err : String) (hdial : s.dial = none)
    (hread : ∀ i m, ms[i]? = some m → s.readMessage i = ReadResult.message m)
    (hend : s.readMessage ms.length = ReadResult.error err) (fuel : Nat) (hfuel : ms.length < fuel) :
    Listen forwardURL token wsURL s fuel =
      (listenIntro forwardURL token wsURL ++ relayCycles forwardURL s 0 ms
          ++ [Event.readMessage (ReadResult.error err)],
        some (Outcome.fatal ("❌ Webhook listener closed unexpectedly: " ++ err))) := by
  obtain ⟨extra, rfl⟩ : ∃ extra, fuel = ms.length + (extra + 1) :=
    ⟨fuel - ms.length - 1, by omega⟩
  unfold Listen
  rw [hdial]
  simp only
  rw [relayLoop_deliver forwardURL s ms (extra + 1) 0 (by intro i m hi; simpa using hread i m hi)]
  simp [relayLoop, hend]

/-- A run observed for `fuel` iterations, none more than the stream has
messages: the trace so far, with the loop still running. -/
theorem Listen_while_delivering (forwardURL token wsURL : String) (s : Stream)
    (ms : List String) (hdial : s.dial = none)
    (hread : ∀ i m, ms[i]? = some m → s.readMessage i = ReadResult.message m)
    (fuel : Nat) (hfuel : fuel ≤ ms.length) :
    Listen forwardURL token wsURL s fuel =
      (listenIntro forwardURL token wsURL ++ relayCycles forwardURL s 0 (ms.take fuel), none) := by
  have hlen : (ms.take fuel).length = fuel := by simp [hfuel]
  have htake : ∀ i m, (ms.take fuel)[i]? = some m → s.readMessage (0 + i) = ReadResult.message m := by
    intro i m hi
    rw [Nat.zero_add]
    apply hread i m
    rw [List.getElem?_take] at hi
    split at hi
    · exact hi
    · cases hi
  have key := relayLoop_deliver forwardURL s (ms.take fuel) 0 0 htake
  rw [hlen] at key
  unfold Listen
  rw [hdial]
  simp only
  rw [show fuel = fuel + 0 from rfl, key]
  simp [relayLoop]

/-! ## Listen: the claims -/

/-- C5: on an established stream that delivers the messages `ms`, with a sink
that answers the POST of each of them, the relay loop has after every number
of iterations forwarded exactly the messages read so far, once each and in the
order received, and is then still running; if the stream ends after `ms`, the
complete run is one cycle per message followed by the failing read, with
exactly the POSTs of `ms` in order.  Each cycle is read, print, POST, close of
the response, so the POST of a message is over before the next one is read. -/
theorem Listen_forwards_in_order (forwardURL token wsURL : String) (s : Stream)
    (ms : List String) (hdial : s.dial = none)
    (hread : ∀ i m, ms[i]? = some m → s.readMessage i = ReadResult.message m)
    (hsink : ∀ i, i < ms.length → ∃ status fields, s.forward i = PostResult.response status fields) :
    (∀ fuel, fuel ≤ ms.length →
        Listen forwardURL token wsURL s fuel
          = (listenIntro forwardURL token wsURL ++ relayCycles forwardURL s 0 (ms.take fuel), none)
        ∧ forwardsOf (Listen forwardURL token wsURL s fuel).1
          = (ms.take fuel).map (fun m => (forwardURL, m)))
      ∧ (∀ err fuel, s.readMessage ms.length = ReadResult.error err → ms.length < fuel →
          (Listen forwardURL token wsURL s fuel).1
            = listenIntro forwardURL token wsURL ++ relayCycles forwardURL s 0 ms
              ++ [Event.readMessage (ReadResult.error err)]
          ∧ forwardsOf (Listen forwardURL token wsURL s fuel).1
            = ms.map (fun m => (forwardURL, m)))
      ∧ (∀ i m, i < ms.length → relayCycle forwardURL s i m
          = [Event.readMessage (ReadResult.message m),
             Event.print "\n🌟 Received Webhook:\n",
             Event.print (m ++ "\n"),
             Event.post forwardURL "application/json" (Body.raw m) (s.forward i),
             Event.closeBody forwardURL i]) := by
  have hintro : forwardsOf (listenIntro forwardURL token wsURL) = [] := rfl
  refine ⟨?_, ?_, ?_⟩
  · intro fuel hfuel
    have key := Listen_while_delivering forwardURL token wsURL s ms hdial hread fuel hfuel
    refine ⟨key, ?_⟩
    rw [key]
    simp only [forwardsOf_append, hintro, forwardsOf_relayCycles, List.nil_append]
  · intro err fuel hend hfuel
    have key := Listen_until_read_error forwardURL token wsURL s ms err hdial hread hend fuel hfuel
    have hlast : forwardsOf [Event.readMessage (ReadResult.error err)] = [] := rfl
    rw [key]
    refine ⟨rfl, ?_⟩
    simp only [forwardsOf_append, hintro, forwardsOf_relayCycles, hlast, List.nil_append,
      List.append_nil]
  · intro i m hi
    obtain ⟨status, fields, h⟩ := hsink i hi
    simp [relayCycle, h]

/-- C5, evaluated on the stream A, B, C of the spec. -/
theorem Listen_forwards_in_order_witness :
    forwardsOf (Listen "http://sink" "tok" "ws://hub" threeThenClosed 10).1
      = ["A", "B", "C"].map (fun m => ("http://sink", m)) :=
  ((Listen_forwards_in_order "http://sink" "tok" "ws://hub" threeThenClosed ["A", "B", "C"]
    rfl
    (by
      intro i m h
      match i, h with
      | 0, h => obtain rfl : "A" = m := by simpa using h
                rfl
      | 1, h => obtain rfl : "B" = m := by simpa using h
                rfl
      | 2, h => obtain rfl : "C" = m := by simpa using h
                rfl
      | n + 3, h => simp at h)
    (fun _ _ => ⟨200, [], rfl⟩)).2.1 "EOF" 10 rfl (by decide)).2

/-- C6: whatever the forward POSTs return (transport error, status 500,
anything), once the stream has delivered the messages `ms` the relay loop has
read all of them, has POSTed each exactly once in the order received, and is
still running; a POST that errors is followed by a log line and nothing else,
and a POST that is answered, whatever the status, by the close of the
response. -/
theorem Listen_survives_forward_failures (forwardURL token wsURL : String) (s : Stream)
    (ms : List String) (hdial : s.dial = none)
    (hread : ∀ i m, ms[i]? = some m → s.readMessage i = ReadResult.message m) :
    Listen forwardURL token wsURL s ms.length
        = (listenIntro forwardURL token wsURL ++ relayCycles forwardURL s 0 ms, none)
      ∧ forwardsOf (Listen forwardURL token wsURL s ms.length).1
          = ms.map (fun m => (forwardURL, m))
      ∧ readsOf (Listen forwardURL token wsURL s ms.length).1 = ms.map ReadResult.message
      ∧ (∀ i m e, s.forward i = PostResult.error e → relayCycle forwardURL s i m
          = [Event.readMessage (ReadResult.message m),
             Event.print "\n🌟 Received Webhook:\n",
             Event.print (m ++ "\n"),
             Event.post forwardURL "application/json" (Body.raw m) (PostResult.error e),
             Event.logPrint ("❌ Failed to forward webhook: " ++ e)])
      ∧ (∀ i m status fields, s.forward i = PostResult.response status fields →
          relayCycle forwardURL s i m
          = [Event.readMessage (ReadResult.message m),
             Event.print "\n🌟 Received Webhook:\n",
             Event.print (m ++ "\n"),
             Event.post forwardURL "application/json" (Body.raw m)
               (PostResult.response status fields),
             Event.closeBody forwardURL i]) := by
  have key := Listen_while_delivering forwardURL token wsURL s ms hdial hread ms.length
    (Nat.le_refl _)
  rw [List.take_length] at key
  have hintro : forwardsOf (listenIntro forwardURL token wsURL) = [] := rfl
  have hintro2 : readsOf (listenIntro forwardURL token wsURL) = [] := rfl
  refine ⟨key, ?_, ?_, ?_, ?_⟩
  · rw [key]
    simp only [forwardsOf_append, hintro, forwardsOf_relayCycles, List.nil_append]
  · rw [key]
    simp only [readsOf_append, hintro2, readsOf_relayCycles, List.nil_append]
  · intro i m e h
    simp [relayCycle, h]
  · intro i m status fields h
    simp [relayCycle, h]

/-- C6, evaluated on a sink that refuses B and answers 500 to C: D is still
forwarded, and B and C were POSTed once. -/
theorem Listen_survives_forward_failures_witness :
    forwardsOf (Listen "http://sink" "tok" "ws://hub" flakySink ["A", "B", "C", "D"].length).1
      = ["A", "B", "C", "D"].map (fun m => ("http://sink", m)) :=
  (Listen_survives_forward_failures "http://sink" "tok" "ws://hub" flakySink ["A", "B", "C", "D"]
    rfl
    (by
      intro i m h
      match i, h with
      | 0, h => obtain rfl : "A" = m := by simpa using h
                rfl
      | 1, h => obtain rfl : "B" = m := by simpa using h
                rfl
      | 2, h => obtain rfl : "C" = m := by simpa using h
                rfl
      | 3, h => obtain rfl : "D" = m := by simpa using h
                rfl
      | n + 4, h => simp at h)).2.1

/-- C7: when the stream delivers the `N` messages `ms` and the next read fails
with `err`, every observation of more than `N` iterations shows the same
finished run: the `N` relay cycles, then the failing read, then the fatal exit
that reports `err`; nothing follows the failing read, exactly `N` forward POSTs
were made, and exactly `N + 1` reads. -/
theorem Listen_read_error_is_fatal (forwardURL token wsURL : String) (s : Stream)
    (ms : List String) (err : String) (hdial : s.dial = none)
    (hread : ∀ i m, ms[i]? = some m → s.readMessage i = ReadResult.message m)
    (hend : s.readMessage ms.length = ReadResult.error err) (fuel : Nat)
    (hfuel : ms.length < fuel) :
    Listen forwardURL token wsURL s fuel
        = (listenIntro forwardURL token wsURL ++ relayCycles forwardURL s 0 ms
            ++ [Event.readMessage (ReadResult.error err)],
          some (Outcome.fatal ("❌ Webhook listener closed unexpectedly: " ++ err)))
      ∧ forwardsOf (Listen forwardURL token wsURL s fuel).1 = ms.map (fun m => (forwardURL, m))
      ∧ (forwardsOf (Listen forwardURL token wsURL s fuel).1).length = ms.length
      ∧ readsOf (Listen forwardURL token wsURL s fuel).1
          = ms.map ReadResult.message ++ [ReadResult.error err] := by
  have key := Listen_until_read_error forwardURL token wsURL s ms err hdial hread hend fuel hfuel
  have hintro : forwardsOf (listenIntro forwardURL token wsURL) = [] := rfl
  have hintro2 : readsOf (listenIntro forwardURL token wsURL) = [] := rfl
  have hlast : forwardsOf [Event.readMessage (ReadResult.error err)] = [] := rfl
  have hlast2 : readsOf [Event.readMessage (ReadResult.error err)] = [ReadResult.error err] := rfl
  have hfw : forwardsOf (Listen forwardURL token wsURL s fuel).1
      = ms.map (fun m => (forwardURL, m)) := by
    rw [key]
    simp only [forwardsOf_append, hintro, forwardsOf_relayCycles, hlast, List.nil_append,
      List.append_nil]
  refine ⟨key, hfw, ?_, ?_⟩
  · rw [hfw, List.length_map]
  · rw [key]
    simp only [readsOf_append, hintro2, readsOf_relayCycles, hlast2, List.nil_append]

/-- C7, evaluated on the stream A, B, C followed by a closed connection. -/
theorem Listen_read_error_is_fatal_witness :
    Listen "http://sink" "tok" "ws://hub" threeThenClosed 4
        = (listenIntro "http://sink" "tok" "ws://hub"
            ++ relayCycles "http://sink" threeThenClosed 0 ["A", "B", "C"]
            ++ [Event.readMessage (ReadResult.error "EOF")],
          some (Outcome.fatal ("❌ Webhook listener closed unexpectedly: " ++ "EOF"))) :=
  (Listen_read_error_is_fatal "http://sink" "tok" "ws://hub" threeThenClosed ["A", "B", "C"] "EOF"
    rfl
    (by
      intro i m h
      match i, h with
      | 0, h => obtain rfl : "A" = m := by simpa using h
                rfl
      | 1, h => obtain rfl : "B" = m := by simpa using h
                rfl
      | 2, h => obtain rfl : "C" = m := by simpa using h
                rfl
      | n + 3, h => simp at h)
    rfl 4 (by decide)).1

/-! ## ReadConfig -/

/-- C10 (amended): `ReadConfig` returns an error exactly when the current user
cannot be determined or the file was read and does not unmarshal into a
`Config`; whenever the file cannot be read, for whatever reason, it returns the
empty `Config` with no error; a file that unmarshals is returned with a nil
`Services` replaced by an empty mapping; so on every successful return
`Services` is present. -/
theorem ReadConfig_result (h : Host) :
    (∀ err, ReadConfig h = Result.error err ↔
        (h.userCurrent = Result.error err ∨
          ∃ homeDir data, h.userCurrent = Result.ok homeDir
            ∧ h.readFile (h.filepathJoin homeDir configFileName) = ReadFileResult.data data
            ∧ h.jsonUnmarshal data = Result.error err))
      ∧ (∀ homeDir, h.userCurrent = Result.ok homeDir →
          (∀ data, h.readFile (h.filepathJoin homeDir configFileName) ≠ ReadFileResult.data data) →
          ReadConfig h = Result.ok emptyConfig)
      ∧ (∀ homeDir data config, h.userCurrent = Result.ok homeDir →
          h.readFile (h.filepathJoin homeDir configFileName) = ReadFileResult.data data →
          h.jsonUnmarshal data = Result.ok config →
          ReadConfig h = Result.ok { config with Services := some (config.Services.getD []) })
      ∧ (∀ config, ReadConfig h = Result.ok config → ∃ services, config.Services = some services)
      ∧ emptyConfig.Services = some [] := by
  have h2 : ∀ homeDir, h.userCurrent = Result.ok homeDir →
      (∀ data, h.readFile (h.filepathJoin homeDir configFileName) ≠ ReadFileResult.data data) →
      ReadConfig h = Result.ok emptyConfig := by
    intro homeDir hu hr
    cases hrd : h.readFile (h.filepathJoin homeDir configFileName) with
    | notExist => simp [ReadConfig, getConfigPath, hu, hrd]
    | failure e => simp [ReadConfig, getConfigPath, hu, hrd]
    | data data => exact absurd hrd (hr data)
  have h3 : ∀ homeDir data config, h.userCurrent = Result.ok homeDir →
      h.readFile (h.filepathJoin homeDir configFileName) = ReadFileResult.data data →
      h.jsonUnmarshal data = Result.ok config →
      ReadConfig h = Result.ok { config with Services := some (config.Services.getD []) } := by
    intro homeDir data config hu hr hj
    cases hs : config.Services with
    | none => simp [ReadConfig, getConfigPath, hu, hr, hj, hs]
    | some services =>
      simp only [ReadConfig, getConfigPath, hu, hr, hj, hs, Option.getD_some]
      rw [← hs]
  refine ⟨?_, h2, h3, ?_, rfl⟩
  · intro err
    cases hu : h.userCurrent with
    | error e => simp [ReadConfig, getConfigPath, hu]
    | ok homeDir =>
      cases hr : h.readFile (h.filepathJoin homeDir configFileName) with
      | notExist => simp [ReadConfig, getConfigPath, hu, hr]
      | failure e => simp [ReadConfig, getConfigPath, hu, hr]
      | data data =>
        cases hj : h.jsonUnmarshal data with
        | error e => simp [ReadConfig, getConfigPath, hu, hr, hj]
        | ok config => simp [h3 homeDir data config hu hr hj, hr, hj]
  · intro config hc
    cases hu : h.userCurrent with
    | error e => simp [ReadConfig, getConfigPath, hu] at hc
    | ok homeDir =>
      cases hr : h.readFile (h.filepathJoin homeDir configFileName) with
      | notExist =>
        rw [h2 homeDir hu (by simp [hr])] at hc
        cases hc
        exact ⟨[], rfl⟩
      | failure e =>
        rw [h2 homeDir hu (by simp [hr])] at hc
        cases hc
        exact ⟨[], rfl⟩
      | data data =>
        cases hj : h.jsonUnmarshal data with
        | error e => simp [ReadConfig, getConfigPath, hu, hr, hj] at hc
        | ok cfg =>
          rw [h3 homeDir data cfg hu hr hj] at hc
          cases hc
          exact ⟨_, rfl⟩

/-- C10, evaluated on a machine without a config file. -/
theorem ReadConfig_result_witness : ReadConfig freshHost = Result.ok emptyConfig :=
  (ReadConfig_result freshHost).2.1 "/home/u" rfl (by intro data hd; cases hd)

/-- C10 as stated fails: a config file that exists but cannot be opened
(permission denied) makes `ReadConfig` return the empty `Config` with no
error. -/
theorem ReadConfig_swallows_read_failure :
    lockedHost.readFile "/home/u/.move-forward.json" = ReadFileResult.failure "permission denied"
      ∧ getConfigPath lockedHost = Result.ok "/home/u/.move-forward.json"
      ∧ ReadConfig lockedHost = Result.ok emptyConfig := by
  decide

/-! ## Login -/

theorem writesOf_append (a b : Trace) : writesOf (a ++ b) = writesOf a ++ writesOf b := by
  simp [writesOf]

theorem writesOf_pollLoop (deviceCode apiURL : String) (d : Int) (poll : Nat → PostResult)
    (remaining : Nat) : ∀ (retries : Nat) (deferred : Trace),
      writesOf (pollLoop deviceCode apiURL d poll remaining retries deferred).1
        = writesOf deferred := by
  induction remaining with
  | zero => intro retries deferred; rfl
  | succ remaining ih =>
    intro retries deferred
    rw [pollLoop]
    cases hpoll : poll retries with
    | error err => rfl
    | response status fields =>
      cases hgrant : (if status = 200 then fields.lookup "token" else none) with
      | some token => simp only [hgrant]; rfl
      | none =>
        simp only [hgrant]
        have := ih (retries + 1) (Event.closeBody (apiURL ++ "/token") retries :: deferred)
        simp only [writesOf, pollRequest, List.filterMap_cons] at this ⊢
        exact this

theorem writesOf_PollForToken (deviceCode apiURL : String) (p m : Int) (poll : Nat → PostResult) :
    writesOf (PollForToken deviceCode apiURL p m poll).1 = [] := by
  rw [PollForToken_eq, writesOf_pollLoop]
  rfl

/-- A poll that returns without error returns the token of a status-200
response, and that response answers its last request. -/
theorem pollLoop_granted (deviceCode apiURL : String) (d : Int) (poll : Nat → PostResult)
    (token : String) (remaining : Nat) : ∀ (retries : Nat) (deferred : Trace),
      (pollLoop deviceCode apiURL d poll remaining retries deferred).2 = (token, none) →
      ∃ j fields, j < remaining ∧ poll (retries + j) = PostResult.response 200 fields
        ∧ fields.lookup "token" = some token
        ∧ (postsOf (pollLoop deviceCode apiURL d poll remaining retries deferred).1).length
            = j + 1 + (postsOf deferred).length := by
  induction remaining with
  | zero => intro retries deferred h; simp [pollLoop] at h
  | succ remaining ih =>
    intro retries deferred h
    rw [pollLoop] at h ⊢
    cases hpoll : poll retries with
    | error err => rw [hpoll] at h; simp at h
    | response status fields =>
      rw [hpoll] at h
      cases hgrant : (if status = 200 then fields.lookup "token" else none) with
      | some tok =>
        simp only [hgrant, Prod.mk.injEq, and_true] at h
        subst h
        have hs : status = 200 := by
          by_contra hne
          simp [hne] at hgrant
        subst hs
        simp only [if_true] at hgrant
        refine ⟨0, fields, Nat.succ_pos _, by simpa using hpoll, hgrant, ?_⟩
        simp only [hgrant, postsOf, pollRequest, List.filter_cons]
        simp
        omega
      | none =>
        simp only [hgrant] at h
        obtain ⟨j, fs, hj, hp, ht, hlen⟩ :=
          ih (retries + 1) (Event.closeBody (apiURL ++ "/token") retries :: deferred) h
        refine ⟨j + 1, fs, Nat.succ_lt_succ hj, ?_, ht, ?_⟩
        · rwa [show retries + (j + 1) = retries + 1 + j by omega]
        · simp only [hgrant, postsOf, pollRequest, List.filter_cons] at hlen ⊢
          simp at hlen ⊢
          omega

theorem PollForToken_granted (deviceCode apiURL : String) (p m : Int) (poll : Nat → PostResult)
    (token : String) (h : (PollForToken deviceCode apiURL p m poll).2 = (token, none)) :
    ∃ k fields, poll k = PostResult.response 200 fields ∧ fields.lookup "token" = some token
      ∧ (postsOf (PollForToken deviceCode apiURL p m poll).1).length = k + 1 := by
  rw [PollForToken_eq] at h ⊢
  obtain ⟨j, fields, _, hp, ht, hlen⟩ := pollLoop_granted _ _ _ _ _ _ _ _ h
  exact ⟨j, fields, by simpa using hp, ht, by simpa [postsOf] using hlen⟩

theorem Login_of_login_error (apiURL : String) (p m : Int) (h : Host) (poll : Nat → PostResult)
    (err : String) :
    Login apiURL p m h (PostResult.error err) poll
      = ([loginRequest apiURL h (PostResult.error err)],
          Outcome.fatal ("❌ Login failed: " ++ err)) := rfl

theorem Login_of_poll_error (apiURL : String) (p m : Int) (h : Host) (poll : Nat → PostResult)
    (status : Int) (result : List (String × String)) (token err : String)
    (hpoll : (PollForToken (mapIndex result "deviceCode") apiURL p m poll).2 = (token, some err)) :
    Login apiURL p m h (PostResult.response status result) poll
      = (loginIntro apiURL h (PostResult.response status result) result
          ++ (PollForToken (mapIndex result "deviceCode") apiURL p m poll).1,
        Outcome.fatal ("❌ " ++ err)) := by
  simp only [Login, hpoll]

theorem Login_of_token (apiURL : String) (p m : Int) (h : Host) (poll : Nat → PostResult)
    (status : Int) (result : List (String × String)) (token : String)
    (hpoll : (PollForToken (mapIndex result "deviceCode") apiURL p m poll).2 = (token, none)) :
    Login apiURL p m h (PostResult.response status result) poll
      = match ReadConfig h with
        | Result.error err =>
          (loginIntro apiURL h (PostResult.response status result) result
              ++ (PollForToken (mapIndex result "deviceCode") apiURL p m poll).1,
            Outcome.fatal ("❌ Failed to read config: " ++ err))
        | Result.ok config =>
          match (WriteConfig h { config with Token := token }).2 with
          | some err =>
            (loginIntro apiURL h (PostResult.response status result) result
                ++ (PollForToken (mapIndex result "deviceCode") apiURL p m poll).1
                ++ (WriteConfig h { config with Token := token }).1,
              Outcome.fatal ("❌ Failed to save login token: " ++ err))
          | none =>
            (loginIntro apiURL h (PostResult.response status result) result
                ++ (PollForToken (mapIndex result "deviceCode") apiURL p m poll).1
                ++ (WriteConfig h { config with Token := token }).1
                ++ [Event.print "✅ Logged in successfully.\n",
                    Event.closeBody (apiURL ++ "/device-login") 0],
              Outcome.returned) := by
  simp only [Login, hpoll]

/-- What `WriteConfig` writes: nothing, or the marshalled config to the config
path. -/
theorem WriteConfig_trace (h : Host) (config : Config) :
    (WriteConfig h config).1 = [] ∨
      ∃ path data, getConfigPath h = Result.ok path
        ∧ h.jsonMarshalIndent config = Result.ok data
        ∧ (WriteConfig h config).1 = [Event.writeFile path data 0o644] := by
  unfold WriteConfig
  cases hpath : getConfigPath h with
  | error err => exact Or.inl rfl
  | ok path =>
    cases hdata : h.jsonMarshalIndent config with
    | error err => exact Or.inl rfl
    | ok data => exact Or.inr ⟨path, data, rfl, rfl, rfl⟩

/-- The part of `Login` after a successful poll: every write it performs is
the single write of the config just read, with `Token` set to `token`, and it
comes right after what was done before. -/
theorem Login_write_after_token (apiURL : String) (p m : Int) (h : Host)
    (poll : Nat → PostResult) (status : Int) (result : List (String × String)) (token : String)
    (hpoll : (PollForToken (mapIndex result "deviceCode") apiURL p m poll).2 = (token, none))
    (path data : String)
    (hmem : (path, data) ∈ writesOf (Login apiURL p m h (PostResult.response status result) poll).1) :
    ∃ config rest, ReadConfig h = Result.ok config
      ∧ getConfigPath h = Result.ok path
      ∧ h.jsonMarshalIndent { config with Token := token } = Result.ok data
      ∧ (Login apiURL p m h (PostResult.response status result) poll).1
          = loginIntro apiURL h (PostResult.response status result) result
            ++ (PollForToken (mapIndex result "deviceCode") apiURL p m poll).1
            ++ Event.writeFile path data 0o644 :: rest
      ∧ writesOf (Login apiURL p m h (PostResult.response status result) poll).1
          = [(path, data)] := by
  have hintro : writesOf (loginIntro apiURL h (PostResult.response status result) result) = [] :=
    rfl
  have hpolled := writesOf_PollForToken (mapIndex result "deviceCode") apiURL p m poll
  rw [Login_of_token apiURL p m h poll status result token hpoll] at hmem ⊢
  cases hread : ReadConfig h with
  | error err =>
    rw [hread] at hmem
    simp [writesOf_append, hintro, hpolled] at hmem
  | ok config =>
    rw [hread] at hmem
    simp only at hmem ⊢
    rcases WriteConfig_trace h { config with Token := token } with hnone | ⟨wp, wd, hwp, hwd, hw⟩
    · have htail : writesOf [Event.print "✅ Logged in successfully.\n",
          Event.closeBody (apiURL ++ "/device-login") 0] = [] := rfl
      cases hres : (WriteConfig h { config with Token := token }).2 with
      | some err =>
        rw [hres] at hmem
        simp only [writesOf_append, hintro, hpolled, hnone, List.append_nil] at hmem
        cases hmem
      | none =>
        rw [hres] at hmem
        simp only [writesOf_append, hintro, hpolled, hnone, htail, List.append_nil] at hmem
        cases hmem
    · cases hres : (WriteConfig h { config with Token := token }).2 with
      | some err =>
        rw [hres] at hmem
        simp only [writesOf_append, hintro, hpolled, hw, List.nil_append] at hmem ⊢
        have hone : writesOf [Event.writeFile wp wd 0o644] = [(wp, wd)] := rfl
        rw [hone] at hmem ⊢
        simp only [List.mem_singleton, Prod.mk.injEq] at hmem
        obtain ⟨rfl, rfl⟩ := hmem
        exact ⟨config, [], rfl, hwp, hwd, rfl, rfl⟩
      | none =>
        rw [hres] at hmem
        have hone : writesOf [Event.writeFile wp wd 0o644] = [(wp, wd)] := rfl
        have htail : writesOf [Event.print "✅ Logged in successfully.\n",
            Event.closeBody (apiURL ++ "/device-login") 0] = [] := rfl
        simp only [writesOf_append, hintro, hpolled, hw, hone, htail, List.nil_append,
          List.append_nil] at hmem ⊢
        simp only [List.mem_singleton, Prod.mk.injEq] at hmem
        obtain ⟨rfl, rfl⟩ := hmem
        exact ⟨config, [Event.print "✅ Logged in successfully.\n",
          Event.closeBody (apiURL ++ "/device-login") 0], rfl, hwp, hwd,
          by simp [List.append_assoc], rfl⟩

/-- C8: in every run of `Login` the config file is written only after
`PollForToken` has returned a token with no error.  If the device-login request
fails, or the poll returns an error (transport error or timeout), the run
performs no write.  If it performs a write, that write is the only one, it
directly follows the effects of the poll, the poll returned `token` with no
error, `token` is the `token` field of the status-200 response to the last poll
request, and the data written is the marshalled config read from the file with
`Token` set to `token`. -/
theorem Login_writes_only_after_token (apiURL : String) (p m : Int) (h : Host)
    (deviceLogin : PostResult) (poll : Nat → PostResult) :
    (∀ err, deviceLogin = PostResult.error err →
        writesOf (Login apiURL p m h deviceLogin poll).1 = [])
      ∧ (∀ status result err, deviceLogin = PostResult.response status result →
          (PollForToken (mapIndex result "deviceCode") apiURL p m poll).2.2 = some err →
          writesOf (Login apiURL p m h deviceLogin poll).1 = [])
      ∧ (∀ path data, (path, data) ∈ writesOf (Login apiURL p m h deviceLogin poll).1 →
          ∃ status result token k fields config rest,
            deviceLogin = PostResult.response status result
            ∧ (PollForToken (mapIndex result "deviceCode") apiURL p m poll).2 = (token, none)
            ∧ poll k = PostResult.response 200 fields
            ∧ fields.lookup "token" = some token
            ∧ (postsOf (PollForToken (mapIndex result "deviceCode") apiURL p m poll).1).length
                = k + 1
            ∧ ReadConfig h = Result.ok config
            ∧ h.jsonMarshalIndent { config with Token := token } = Result.ok data
            ∧ (Login apiURL p m h deviceLogin poll).1
                = loginIntro apiURL h deviceLogin result
                  ++ (PollForToken (mapIndex result "deviceCode") apiURL p m poll).1
                  ++ Event.writeFile path data 0o644 :: rest
            ∧ writesOf (Login apiURL p m h deviceLogin poll).1 = [(path, data)]) := by
  have hpollErr : ∀ status result err,
      (PollForToken (mapIndex result "deviceCode") apiURL p m poll).2.2 = some err →
      writesOf (Login apiURL p m h (PostResult.response status result) poll).1 = [] := by
    intro status result err herr
    have hpoll : (PollForToken (mapIndex result "deviceCode") apiURL p m poll).2
        = ((PollForToken (mapIndex result "deviceCode") apiURL p m poll).2.1, some err) := by
      rw [← herr]
    rw [Login_of_poll_error apiURL p m h poll status result _ err hpoll]
    have hintro : writesOf (loginIntro apiURL h (PostResult.response status result) result)
        = [] := rfl
    simp only [writesOf_append, hintro, writesOf_PollForToken, List.append_nil]
  refine ⟨?_, ?_, ?_⟩
  · rintro err rfl
    rfl
  · rintro status result err rfl herr
    exact hpollErr status result err herr
  · intro path data hmem
    cases deviceLogin with
    | error err => simp [Login_of_login_error, writesOf, loginRequest] at hmem
    | response status result =>
      cases herr : (PollForToken (mapIndex result "deviceCode") apiURL p m poll).2.2 with
      | some err =>
        rw [hpollErr status result err herr] at hmem
        cases hmem
      | none =>
        have hpoll : (PollForToken (mapIndex result "deviceCode") apiURL p m poll).2
            = ((PollForToken (mapIndex result "deviceCode") apiURL p m poll).2.1, none) := by
          rw [← herr]
        obtain ⟨k, fields, hk, htok, hlen⟩ := PollForToken_granted _ _ _ _ _ _ hpoll
        obtain ⟨config, rest, hread, _, hdata, htrace, hwrites⟩ :=
          Login_write_after_token apiURL p m h poll status result _ hpoll path data hmem
        exact ⟨status, result, _, k, fields, config, rest, rfl, hpoll, hk, htok, hlen, hread,
          hdata, htrace, hwrites⟩

/-- C8, evaluated on a login that is approved at the third poll (the one write
stores the token of that response) and on one whose first request fails. -/
theorem Login_writes_only_after_token_witness :
    writesOf (Login "u" 1 5 freshHost (PostResult.error "no route to host") approvedAtThird).1 = []
      ∧ ∃ status result token k fields config rest,
          deviceCodeIssued = PostResult.response status result
          ∧ (PollForToken (mapIndex result "deviceCode") "u" 1 5 approvedAtThird).2 = (token, none)
          ∧ approvedAtThird k = PostResult.response 200 fields
          ∧ fields.lookup "token" = some token
          ∧ (postsOf (PollForToken (mapIndex result "deviceCode") "u" 1 5 approvedAtThird).1).length
              = k + 1
          ∧ ReadConfig freshHost = Result.ok config
          ∧ freshHost.jsonMarshalIndent { config with Token := token } = Result.ok "token=tok"
          ∧ (Login "u" 1 5 freshHost deviceCodeIssued approvedAtThird).1
              = loginIntro "u" freshHost deviceCodeIssued result
                ++ (PollForToken (mapIndex result "deviceCode") "u" 1 5 approvedAtThird).1
                ++ Event.writeFile "/home/u/.move-forward.json" "token=tok" 0o644 :: rest
          ∧ writesOf (Login "u" 1 5 freshHost deviceCodeIssued approvedAtThird).1
              = [("/home/u/.move-forward.json", "token=tok")] :=
  ⟨(Login_writes_only_after_token "u" 1 5 freshHost (PostResult.error "no route to host")
      approvedAtThird).1 "no route to host" rfl,
   (Login_writes_only_after_token "u" 1 5 freshHost deviceCodeIssued approvedAtThird).2.2
      "/home/u/.move-forward.json" "token=tok" (by decide)⟩

/-- C9 (amended): `Login` fails at initiation when the device-login request
fails at the transport layer, and then it has made that one request and
nothing else: no sleep, no poll request.  On every response, whatever its
status and fields, it prints the verification link and starts polling with the
value of the response's `deviceCode` field, which is the empty string when the
response has no such field. -/
theorem Login_initiation (apiURL : String) (p m : Int) (h : Host) (deviceLogin : PostResult)
    (poll : Nat → PostResult) :
    (∀ err, deviceLogin = PostResult.error err →
        Login apiURL p m h deviceLogin poll
          = ([loginRequest apiURL h deviceLogin], Outcome.fatal ("❌ Login failed: " ++ err))
        ∧ sleepsOf (Login apiURL p m h deviceLogin poll).1 = []
        ∧ (postsOf (Login apiURL p m h deviceLogin poll).1).length = 1)
      ∧ (∀ status result, deviceLogin = PostResult.response status result →
          ∃ rest, (Login apiURL p m h deviceLogin poll).1
            = loginIntro apiURL h deviceLogin result
              ++ (PollForToken (mapIndex result "deviceCode") apiURL p m poll).1 ++ rest)
      ∧ (∀ result code, result.lookup "deviceCode" = some code →
          mapIndex result "deviceCode" = code)
      ∧ (∀ result, result.lookup "deviceCode" = none → mapIndex result "deviceCode" = "") := by
  refine ⟨?_, ?_, ?_, ?_⟩
  · rintro err rfl
    exact ⟨rfl, rfl, rfl⟩
  · rintro status result rfl
    cases herr : (PollForToken (mapIndex result "deviceCode") apiURL p m poll).2.2 with
    | some err =>
      have hpoll : (PollForToken (mapIndex result "deviceCode") apiURL p m poll).2
          = ((PollForToken (mapIndex result "deviceCode") apiURL p m poll).2.1, some err) := by
        rw [← herr]
      exact ⟨[], by rw [Login_of_poll_error apiURL p m h poll status result _ err hpoll]; simp⟩
    | none =>
      have hpoll : (PollForToken (mapIndex result "deviceCode") apiURL p m poll).2
          = ((PollForToken (mapIndex result "deviceCode") apiURL p m poll).2.1, none) := by
        rw [← herr]
      rw [Login_of_token apiURL p m h poll status result _ hpoll]
      cases ReadConfig h with
      | error e => exact ⟨[], by simp⟩
      | ok config =>
        simp only
        cases (WriteConfig h { config with
          Token := (PollForToken (mapIndex result "deviceCode") apiURL p m poll).2.1 }).2 with
        | some e => exact ⟨_, rfl⟩
        | none =>
          exact ⟨(WriteConfig h { config with
              Token := (PollForToken (mapIndex result "deviceCode") apiURL p m poll).2.1 }).1
            ++ [Event.print "✅ Logged in successfully.\n",
                Event.closeBody (apiURL ++ "/device-login") 0],
            by simp only [List.append_assoc]⟩
  · intro result code hcode
    simp [mapIndex, hcode]
  · intro result hnone
    simp [mapIndex, hnone]

/-- C9, evaluated on a device-login request that cannot reach the service. -/
theorem Login_initiation_witness :
    Login "u" 1 5 freshHost (PostResult.error "no route to host") approvedAtThird
        = ([loginRequest "u" freshHost (PostResult.error "no route to host")],
            Outcome.fatal ("❌ Login failed: " ++ "no route to host"))
      ∧ sleepsOf (Login "u" 1 5 freshHost (PostResult.error "no route to host")
          approvedAtThird).1 = []
      ∧ (postsOf (Login "u" 1 5 freshHost (PostResult.error "no route to host")
          approvedAtThird).1).length = 1 :=
  (Login_initiation "u" 1 5 freshHost (PostResult.error "no route to host") approvedAtThird).1
    "no route to host" rfl

/-- C9 as stated fails: a device-login response without a device code does
not stop `Login`; it sleeps and polls with the empty device code, and the run
ends with the poll's timeout, not with an initiation error. -/
theorem Login_polls_without_device_code :
    noDeviceCode = PostResult.response 200 [("verificationUri", "https://auth.example/verify")]
      ∧ Login "u" 1 1 freshHost noDeviceCode pendingForever
        = ([loginRequest "u" freshHost noDeviceCode,
            Event.print "🔗 Open the following link in your browser to authenticate:\n",
            Event.print "👉 https://auth.example/verify\n",
            Event.print "⌛ Waiting for authorization...\n",
            Event.sleep 1000000000,
            Event.post "u/token" "application/json" (Body.json [("deviceCode", "")])
              (PostResult.response 200 []),
            Event.closeBody "u/token" 0],
           Outcome.fatal "❌ authorization timed out. Please try again") := by
  decide

end MoveForward
